import Mathlib

/-!
Verification development for the ratzek-services-http-backend daemon.

We give a shallow embedding of the core subsystems that the specification
talks about:

* the persistent state store (`src/persistent_state.rs`):
  `PersistentState`, `PersistentStateGuard` with `get` / `update` /
  `reload` / `is_changed_on_disk`, over an explicit model of the backing
  file (`disk : Option (String × Int)` — content and modification time);
* the notification dispatcher (`src/telegram.rs`): `process_queue` with its
  drain / pop-loop / write-back phases, the timeout check
  `(now - timestamp).to_std().unwrap()`, and the delivery text;
* the balance acquisition pipeline (`src/mobile_provider.rs`):
  `decode_ucs2_in_hex`, `decode_utf8_in_hex`, `get_balance_once`,
  `get_balance`.

Machine floats (`f64`) are represented by exact decimal numbers
(`Dec`, a mantissa and a power-of-ten scale — every decimal literal the
program handles is represented exactly); `chrono` timestamps by `Int`;
`std::time::Duration` by `Nat`.  External effects (the Telegram network
call, the shell commands, the file system) are oracles / explicit state
threaded through the functions.
-/

namespace Ratzek

/-- Model of `f64` values: the exact decimal `mantissa × 10 ^ (-scale)`.
All numbers the pipeline manipulates come from decimal literals, which this
representation carries exactly. -/
structure Dec where
  mantissa : Int
  scale : Nat
deriving DecidableEq, Repr

/-- The rational value of a `Dec`. -/
def Dec.toRat (d : Dec) : Rat :=
  (d.mantissa : Rat) / (10 : Rat) ^ d.scale

/-- Structure `TelegramMessage` from `src/persistent_state.rs`. -/
structure TelegramMessage where
  chat_id : String
  text : String
  timestamp : Int
deriving DecidableEq, Repr

/-- Structure `SpeedTest` from `src/speedtest.rs` (`download`, `upload`, `ping : f64`). -/
structure SpeedTest where
  download : Dec
  upload : Dec
  ping : Dec
deriving DecidableEq, Repr

/-- Structure `PersistentState` from `src/persistent_state.rs`. -/
structure PersistentState where
  is_wide_network_available : Option Bool
  speedtest : Option SpeedTest
  last_tariff_update : Option Int
  balance : Option Dec
  telegram_queue : List TelegramMessage
deriving DecidableEq, Repr

/-- The `Default` derive of `PersistentState`: every field `None` / empty. -/
def PersistentState.defaultState : PersistentState :=
  ⟨none, none, none, none, []⟩

/-! ## A serialization codec for `PersistentState`

Modelled from the spec: the on-disk YAML rendering produced by
`serde_yaml::to_string` / `serde_yaml::from_str` (library code, not part of
this repository) is represented by an injective textual encoding of the
full record together with a parser.  The property the store relies on —
parsing a serialized record gives back the record — matches the library's
round-trip behaviour for this data type. -/

/-- Base-10 digits of `n`, least significant first, with explicit fuel so
that the definition reduces by computation; `natDigits` below instantiates
the fuel. -/
def natDigitsAux : Nat → Nat → List Nat
  | 0, _ => []
  | fuel + 1, n => if n = 0 then [] else n % 10 :: natDigitsAux fuel (n / 10)

/-- Base-10 digits of `n`, least significant first. -/
def natDigits (n : Nat) : List Nat :=
  natDigitsAux n n

/-- Serialize a `Nat` as its base-10 digit characters (least significant
first) terminated by a `;` marker. -/
def serNat (n : Nat) : List Char :=
  (natDigits n).map Nat.digitChar ++ [';']

/-- Is `c` one of the ten decimal digit characters (code points 48-57)? -/
def isDigitCh (c : Char) : Bool :=
  47 < c.toNat && c.toNat < 58

/-- Numeric value of a decimal digit character (code point minus 48). -/
def digitVal (c : Char) : Nat :=
  c.toNat - 48

/-- Parse a `serNat`-encoded number, returning the value and the rest. -/
def parseNat (cs : List Char) : Option (Nat × List Char) :=
  let ds := cs.takeWhile (fun c => !(c == ';'))
  match cs.dropWhile (fun c => !(c == ';')) with
  | ';' :: rest =>
      if ds.all isDigitCh then some (Nat.ofDigits 10 (ds.map digitVal), rest)
      else none
  | _ => none

/-- Serialize an `Int` as a sign character followed by its absolute value. -/
def serInt (i : Int) : List Char :=
  (if i < 0 then '-' else '+') :: serNat i.natAbs

/-- Parse a `serInt`-encoded integer. -/
def parseInt (cs : List Char) : Option (Int × List Char) :=
  match cs with
  | '-' :: rest => (parseNat rest).map (fun p => (-(p.1 : Int), p.2))
  | '+' :: rest => (parseNat rest).map (fun p => ((p.1 : Int), p.2))
  | _ => none

/-- Serialize a `Bool` as a single tag character. -/
def serBool (b : Bool) : List Char :=
  [if b then '1' else '0']

/-- Parse a `serBool`-encoded boolean. -/
def parseBool (cs : List Char) : Option (Bool × List Char) :=
  match cs with
  | '1' :: rest => some (true, rest)
  | '0' :: rest => some (false, rest)
  | _ => none

/-- Serialize a `String`, length-prefixed. -/
def serString (s : String) : List Char :=
  serNat s.data.length ++ s.data

/-- Parse a `serString`-encoded string. -/
def parseString (cs : List Char) : Option (String × List Char) :=
  match parseNat cs with
  | some (n, rest) =>
      if n ≤ rest.length then some (⟨rest.take n⟩, rest.drop n) else none
  | none => none

/-- Serialize a `Dec` as mantissa and scale. -/
def serDec (d : Dec) : List Char :=
  serInt d.mantissa ++ serNat d.scale

/-- Parse a `serDec`-encoded decimal. -/
def parseDec (cs : List Char) : Option (Dec × List Char) :=
  match parseInt cs with
  | some (m, rest) =>
      match parseNat rest with
      | some (sc, rest2) => some (⟨m, sc⟩, rest2)
      | none => none
  | none => none

/-- Serialize an `Option` with a presence tag. -/
def serOption (f : α → List Char) : Option α → List Char
  | none => ['n']
  | some a => 's' :: f a

/-- Parse a `serOption`-encoded optional value. -/
def parseOption (p : List Char → Option (α × List Char)) (cs : List Char) :
    Option (Option α × List Char) :=
  match cs with
  | 'n' :: rest => some (none, rest)
  | 's' :: rest => (p rest).map (fun q => (some q.1, q.2))
  | _ => none

/-- Serialize a `List`, length-prefixed. -/
def serList (f : α → List Char) (l : List α) : List Char :=
  serNat l.length ++ (l.map f).flatten

/-- Parse exactly `n` consecutive `p`-encoded values. -/
def parseCount (p : List Char → Option (α × List Char)) :
    Nat → List Char → Option (List α × List Char)
  | 0, cs => some ([], cs)
  | n + 1, cs =>
      match p cs with
      | some (a, rest) =>
          match parseCount p n rest with
          | some (as, rest2) => some (a :: as, rest2)
          | none => none
      | none => none

/-- Parse a `serList`-encoded list. -/
def parseList (p : List Char → Option (α × List Char)) (cs : List Char) :
    Option (List α × List Char) :=
  match parseNat cs with
  | some (n, rest) => parseCount p n rest
  | none => none

/-- Serialize a `SpeedTest`. -/
def serSpeedTest (s : SpeedTest) : List Char :=
  serDec s.download ++ serDec s.upload ++ serDec s.ping

/-- Parse a `serSpeedTest`-encoded record. -/
def parseSpeedTest (cs : List Char) : Option (SpeedTest × List Char) :=
  match parseDec cs with
  | some (d, r1) =>
      match parseDec r1 with
      | some (u, r2) =>
          match parseDec r2 with
          | some (p, r3) => some (⟨d, u, p⟩, r3)
          | none => none
      | none => none
  | none => none

/-- Serialize a `TelegramMessage`. -/
def serMessage (m : TelegramMessage) : List Char :=
  serString m.chat_id ++ serString m.text ++ serInt m.timestamp

/-- Parse a `serMessage`-encoded record. -/
def parseMessage (cs : List Char) : Option (TelegramMessage × List Char) :=
  match parseString cs with
  | some (c, r1) =>
      match parseString r1 with
      | some (t, r2) =>
          match parseInt r2 with
          | some (ts, r3) => some (⟨c, t, ts⟩, r3)
          | none => none
      | none => none
  | none => none

/-- Serialize the full `PersistentState` record. -/
def serState (ps : PersistentState) : List Char :=
  serOption serBool ps.is_wide_network_available ++
  serOption serSpeedTest ps.speedtest ++
  serOption serInt ps.last_tariff_update ++
  serOption serDec ps.balance ++
  serList serMessage ps.telegram_queue

/-- Parse a full `PersistentState` record. -/
def parseState (cs : List Char) : Option (PersistentState × List Char) :=
  match parseOption parseBool cs with
  | some (w, r1) =>
      match parseOption parseSpeedTest r1 with
      | some (sp, r2) =>
          match parseOption parseInt r2 with
          | some (lt, r3) =>
              match parseOption parseDec r3 with
              | some (b, r4) =>
                  match parseList parseMessage r4 with
                  | some (q, r5) => some (⟨w, sp, lt, b, q⟩, r5)
                  | none => none
              | none => none
          | none => none
      | none => none
  | none => none

/-- Model of `serde_yaml::to_string` on a `PersistentState`. -/
def serializeState (ps : PersistentState) : String :=
  ⟨serState ps⟩

/-- Model of `serde_yaml::from_str::<PersistentState>`: the whole document
must parse. -/
def deserializeState (s : String) : Option PersistentState :=
  match parseState s.data with
  | some (ps, []) => some ps
  | _ => none

/-! ## The persistent state store (`src/persistent_state.rs`) -/

/-- The backing file of the store: `none` when the file is missing (or
unreadable), otherwise its content and its modification time. -/
abbrev Disk := Option (String × Int)

/-- Function `PersistentState::load_from_yaml`: read the file, returning the default
record if the read fails, parse it, returning the default record if the
parse fails. -/
def PersistentState.load_from_yaml (disk : Disk) : PersistentState :=
  match disk with
  | none => PersistentState.defaultState
  | some (content, _) =>
      match deserializeState content with
      | some st => st
      | none => PersistentState.defaultState

/-- Structure `PersistentStateGuard` from `src/persistent_state.rs`, together with the
file it owns: `disk` models the file at `persistent_state_path`,
`last_read_time` and `state` the two mutex-protected fields. -/
structure PersistentStateGuard where
  disk : Disk
  last_read_time : Int
  state : PersistentState
deriving DecidableEq, Repr

namespace PersistentStateGuard

/-- Function `PersistentStateGuard::load_from_yaml`: initial load at time `now`. -/
def load_from_yaml (disk : Disk) (now : Int) : PersistentStateGuard :=
  ⟨disk, now, PersistentState.load_from_yaml disk⟩

/-- Function `PersistentStateGuard::is_changed_on_disk`: `false` when the metadata
read fails (missing file), otherwise whether the modification time is
strictly newer than `last_read_time`. -/
def is_changed_on_disk (g : PersistentStateGuard) : Bool :=
  match g.disk with
  | none => false
  | some (_, mtime) => g.last_read_time < mtime

/-- Function `PersistentStateGuard::reload`: if the file changed on disk, replace the
in-memory state with the file's content and stamp `last_read_time`. -/
def reload (g : PersistentStateGuard) (now : Int) : PersistentStateGuard :=
  if g.is_changed_on_disk then
    { g with state := PersistentState.load_from_yaml g.disk, last_read_time := now }
  else g

/-- Function `PersistentStateGuard::update`: reload, apply the mutator to the
in-memory state, serialize the full record and write it back.  `writeOk`
models whether `std::fs::write` succeeds; on failure the error is returned
but the in-memory mutation stands (the code mutates through the guard
before writing).  A successful write replaces the file content and its
modification time becomes the current time. -/
def update (g : PersistentStateGuard) (now : Int) (writeOk : Bool)
    (f : PersistentState → PersistentState × R) :
    PersistentStateGuard × Except Unit R :=
  let g1 := g.reload now
  let mutated := f g1.state
  let g2 := { g1 with state := mutated.1 }
  if writeOk then
    ({ g2 with disk := some (serializeState mutated.1, now) }, Except.ok mutated.2)
  else (g2, Except.error ())

/-- Function `PersistentStateGuard::get`: reload, then return a copy of the state. -/
def get (g : PersistentStateGuard) (now : Int) :
    PersistentStateGuard × PersistentState :=
  let g1 := g.reload now
  (g1, g1.state)

end PersistentStateGuard

/-! ## The notification dispatcher (`src/telegram.rs`)

`try_send_message` performs a network call; its outcome is modelled by an
oracle `send : String → String → Bool` (chat id, text ↦ success).  Times
are passed explicitly (`chrono::Local::now()`). -/

namespace Telegram

/-- The text sent for a queued message: the original text with the original
enqueue time appended, from the `format!` call in `process_queue`.
`formatTimestamp` stands for `timestamp.format("%Y-%m-%d %H:%M:%S")`
(an injective rendering of the instant). -/
def formatTimestamp (t : Int) : String :=
  toString t

/-- The outgoing text built by `process_queue` for a retried message. -/
def retryText (m : TelegramMessage) : String :=
  m.text ++ "\n\nЭто сообщение было отправлено в " ++
    formatTimestamp m.timestamp ++ "."

/-- One run of the `while let Some(message) = queue.pop()` loop, acting on
the queue already put into pop order (`Vec::pop` removes the *last*
element, so the loop walks the drained vector back to front; callers pass
`drained.reverse`).  Per message, exactly as in the source:

* `(chrono::Local::now() - message.timestamp).to_std().unwrap()` — the
  conversion fails (and `unwrap` panics, modelled as `none`) when the
  message timestamp is in the future;
* if the age exceeds `message_timeout`, the message is dropped;
* otherwise delivery is attempted with `retryText`; on failure the message
  is pushed onto `new_queue`.

Returns `(new_queue, examined, attempts)`: the retained messages, the
messages in the order they were examined, and the delivery attempts
(chat id, text) in the order they were made. -/
def processPop (now : Int) (message_timeout : Nat)
    (send : String → String → Bool) :
    List TelegramMessage →
    Option (List TelegramMessage × List TelegramMessage ×
      List (String × String))
  | [] => some ([], [], [])
  | m :: rest =>
      if now < m.timestamp then
        none
      else if message_timeout < (now - m.timestamp).toNat then
        match processPop now message_timeout send rest with
        | some (nq, ex, att) => some (nq, m :: ex, att)
        | none => none
      else
        let text := retryText m
        match processPop now message_timeout send rest with
        | some (nq, ex, att) =>
            some ((if send m.chat_id text then nq else m :: nq),
              m :: ex, (m.chat_id, text) :: att)
        | none => none

/-- The processing phase of `process_queue` on the drained vector:
`Vec::pop` yields the elements in reverse insertion order. -/
def processDrained (now : Int) (message_timeout : Nat)
    (send : String → String → Bool) (drained : List TelegramMessage) :
    Option (List TelegramMessage × List TelegramMessage ×
      List (String × String)) :=
  processPop now message_timeout send drained.reverse

/-- The mutator of the first `update` of `process_queue`: clone the queue,
clear it, return the clone (the atomic drain). -/
def drainMutator (s : PersistentState) :
    PersistentState × List TelegramMessage :=
  ({ s with telegram_queue := [] }, s.telegram_queue)

/-- The mutator `send_message` runs when a delivery fails: push the failed
message onto the queue (`Vec::push` appends at the end). -/
def enqueueMutator (m : TelegramMessage) (s : PersistentState) :
    PersistentState × Unit :=
  ({ s with telegram_queue := s.telegram_queue ++ [m] }, ())

/-- The mutator of the final `update` of `process_queue`: overwrite the
queue field with `new_queue` (`persistent_state.telegram_queue = new_queue`). -/
def writebackMutator (new_queue : List TelegramMessage)
    (s : PersistentState) : PersistentState × Unit :=
  ({ s with telegram_queue := new_queue }, ())

/-- The observable pieces of one `process_queue` run. -/
structure QueueRun where
  afterDrain : PersistentStateGuard
  drained : List TelegramMessage
  midStore : PersistentStateGuard
  attempts : List (String × String)
  examined : List TelegramMessage
  result : Option PersistentStateGuard

/-- Function `Telegram::process_queue` (file writes succeed in this model):

1. atomically drain the queue (first `update`);
2. `arrivals` — messages enqueued by concurrent `send_message` calls
   between the drain and the final write-back — are committed through
   `enqueueMutator` (each such call is its own `update`);
3. the pop loop examines the drained messages newest first; a future
   timestamp panics the task (`result = none`) before the write-back runs;
4. the final `update` stores `new_queue` into the queue field. -/
def process_queue (g : PersistentStateGuard) (now : Int)
    (message_timeout : Nat) (send : String → String → Bool)
    (arrivals : List TelegramMessage) : QueueRun :=
  let drainRes := g.update now true drainMutator
  let g1 := drainRes.1
  let drained := match drainRes.2 with
    | Except.ok q => q
    | Except.error _ => []
  let gMid := arrivals.foldl
    (fun acc m => (acc.update now true (enqueueMutator m)).1) g1
  match processDrained now message_timeout send drained with
  | none =>
      ⟨g1, drained, gMid, [], [], none⟩
  | some (new_queue, ex, att) =>
      ⟨g1, drained, gMid, att, ex,
        some (gMid.update now true (writebackMutator new_queue)).1⟩

end Telegram

/-! ## The balance acquisition pipeline (`src/mobile_provider.rs`) -/

namespace MobileProvider

/-- Rust `char::is_whitespace` restricted to the ASCII whitespace the
modem replies contain. -/
def isWs (c : Char) : Bool :=
  [' ', '\t', '\n', '\r'].contains c

/-- Rust `str::trim`: strip whitespace from both ends. -/
def trimL (cs : List Char) : List Char :=
  ((cs.dropWhile isWs).reverse.dropWhile isWs).reverse

/-- Split on a separator character, keeping empty parts — the behaviour of
Rust `str::split` with a one-character pattern. -/
def splitOnCh (sep : Char) : List Char → List (List Char)
  | [] => [[]]
  | c :: rest =>
      if c == sep then [] :: splitOnCh sep rest
      else
        match splitOnCh sep rest with
        | h :: t => (c :: h) :: t
        | [] => [[c]]

/-- Drop a single trailing `'\r'`, as Rust `str::lines` does per line. -/
def stripCr (cs : List Char) : List Char :=
  match cs.reverse with
  | '\r' :: rest => rest.reverse
  | _ => cs

/-- Rust `str::lines`: split on `'\n'`, drop the final empty piece produced
by a trailing newline, strip one `'\r'` per line. -/
def linesL (cs : List Char) : List (List Char) :=
  if cs.isEmpty then []
  else
    let parts := splitOnCh '\n' cs
    let parts := if parts.getLast? = some [] then parts.dropLast else parts
    parts.map stripCr

/-- Rust `str::split_whitespace` helper: `acc` holds the current word
reversed. -/
def splitWsAux : List Char → List Char → List (List Char)
  | [], acc => if acc.isEmpty then [] else [acc.reverse]
  | c :: rest, acc =>
      if isWs c then
        if acc.isEmpty then splitWsAux rest []
        else acc.reverse :: splitWsAux rest []
      else splitWsAux rest (c :: acc)

/-- Rust `str::split_whitespace`: maximal runs of non-whitespace. -/
def splitWhitespaceL (cs : List Char) : List (List Char) :=
  splitWsAux cs []

/-- Value of one hexadecimal digit character. -/
def hexDigitVal (c : Char) : Option Nat :=
  let n := c.toNat
  if 47 < n && n < 58 then some (n - 48)
  else if 96 < n && n < 103 then some (n - 87)
  else if 64 < n && n < 71 then some (n - 55)
  else none

/-- Rust `u8::from_str_radix(&hex[i..i+2], 16)`: two characters, where the first
may be a `+` sign. -/
def hexByte (c1 c2 : Char) : Option Nat :=
  if c1 == '+' then hexDigitVal c2
  else
    match hexDigitVal c1, hexDigitVal c2 with
    | some d1, some d2 => some (16 * d1 + d2)
    | _, _ => none

/-- The `(0..hex.len()).step_by(2)` loop collecting parsed bytes. -/
def hexPairs : List Char → Option (List Nat)
  | [] => some []
  | c1 :: c2 :: rest =>
      match hexByte c1 c2 with
      | some b =>
          match hexPairs rest with
          | some bs => some (b :: bs)
          | none => none
      | none => none
  | [_] => none

/-- Rust `bytes.chunks(2)` mapped through `u16::from_be_bytes`.  The byte list
always has even length here because the hex string was truncated to a
multiple of four digits, so the one-element chunk never occurs. -/
def u16be : List Nat → List Nat
  | b1 :: b2 :: rest => (b1 * 256 + b2) :: u16be rest
  | _ => []

/-- Model of Rust `String::from_utf16`: UTF-16 decoding with surrogate-pair
validation. -/
def utf16Decode : List Nat → Option (List Char)
  | [] => some []
  | u :: rest =>
      if u < 0xD800 || 0xE000 ≤ u then
        match utf16Decode rest with
        | some cs => some (Char.ofNat u :: cs)
        | none => none
      else if u < 0xDC00 then
        match rest with
        | v :: rest2 =>
            if 0xDC00 ≤ v && v < 0xE000 then
              match utf16Decode rest2 with
              | some cs =>
                  some (Char.ofNat
                    (0x10000 + (u - 0xD800) * 0x400 + (v - 0xDC00)) :: cs)
              | none => none
            else none
        | [] => none
      else none

/-- Is `b` a UTF-8 continuation byte? -/
def isCont (b : Nat) : Bool :=
  0x80 ≤ b && b < 0xC0

/-- Model of Rust `String::from_utf8`: UTF-8 decoding with validation
(overlong forms, surrogates and out-of-range values rejected). -/
def utf8Decode : List Nat → Option (List Char)
  | [] => some []
  | b :: rest =>
      if b < 0x80 then
        match utf8Decode rest with
        | some cs => some (Char.ofNat b :: cs)
        | none => none
      else if b < 0xC2 then none
      else if b < 0xE0 then
        match rest with
        | b2 :: rest2 =>
            if isCont b2 then
              match utf8Decode rest2 with
              | some cs =>
                  some (Char.ofNat ((b - 0xC0) * 0x40 + (b2 - 0x80)) :: cs)
              | none => none
            else none
        | _ => none
      else if b < 0xF0 then
        match rest with
        | b2 :: b3 :: rest2 =>
            if isCont b2 && isCont b3 &&
               (!(b == 0xE0) || 0xA0 ≤ b2) && (!(b == 0xED) || b2 < 0xA0) then
              match utf8Decode rest2 with
              | some cs =>
                  some (Char.ofNat
                    ((b - 0xE0) * 0x1000 + (b2 - 0x80) * 0x40 + (b3 - 0x80))
                    :: cs)
              | none => none
            else none
        | _ => none
      else if b < 0xF5 then
        match rest with
        | b2 :: b3 :: b4 :: rest2 =>
            if isCont b2 && isCont b3 && isCont b4 &&
               (!(b == 0xF0) || 0x90 ≤ b2) && (!(b == 0xF4) || b2 < 0x90) then
              match utf8Decode rest2 with
              | some cs =>
                  some (Char.ofNat
                    ((b - 0xF0) * 0x40000 + (b2 - 0x80) * 0x1000 +
                      (b3 - 0x80) * 0x40 + (b4 - 0x80)) :: cs)
              | none => none
            else none
        | _ => none
      else none

/-- Function `decode_ucs2_in_hex`: truncate the hex string to a multiple of four
digits, parse hex bytes, group into big-endian 16-bit units, decode as
UTF-16. -/
def decode_ucs2_in_hex (hex : List Char) : Option (List Char) :=
  let hex := hex.take (hex.length - hex.length % 4)
  match hexPairs hex with
  | some bytes => utf16Decode (u16be bytes)
  | none => none

/-- Function `decode_utf8_in_hex`: truncate the hex string to a multiple of two
digits, parse hex bytes, decode as UTF-8. -/
def decode_utf8_in_hex (hex : List Char) : Option (List Char) :=
  let hex := hex.take (hex.length - hex.length % 2)
  match hexPairs hex with
  | some bytes => utf8Decode bytes
  | none => none

/-- Digits (most significant first) to a natural number. -/
def natOfDigitsMSB (cs : List Char) : Nat :=
  cs.foldl (fun a c => 10 * a + (c.toNat - '0'.toNat)) 0

/-- Model of Rust `f64::from_str` on the finite-decimal grammar
`[sign] (Digits ['.' Digits?] | '.' Digits) [('e'|'E') [sign] Digits]`,
with the value read exactly as a `Dec`.  (`inf` / `nan`, which have no
finite value, are outside the model and rejected.) -/
def parseFloat (cs : List Char) : Option Dec :=
  let signAndRest : Int × List Char :=
    match cs with
    | '-' :: rest => (-1, rest)
    | '+' :: rest => (1, rest)
    | _ => (1, cs)
  let sgn := signAndRest.1
  let body := signAndRest.2
  let ipart := body.takeWhile isDigitCh
  let r1 := body.dropWhile isDigitCh
  let fracAndRest : List Char × List Char :=
    match r1 with
    | '.' :: r2 => (r2.takeWhile isDigitCh, r2.dropWhile isDigitCh)
    | _ => ([], r1)
  let fpart := fracAndRest.1
  let r3 := fracAndRest.2
  if ipart.isEmpty && fpart.isEmpty then none
  else
    let mant : Int :=
      sgn * ((natOfDigitsMSB ipart * 10 ^ fpart.length + natOfDigitsMSB fpart : Nat) : Int)
    match r3 with
    | [] => some ⟨mant, fpart.length⟩
    | 'e' :: r4 => parseFloatExp mant fpart.length r4
    | 'E' :: r4 => parseFloatExp mant fpart.length r4
    | _ => none
where
  /-- The exponent part: `[sign] Digits`, end of input required. -/
  parseFloatExp (mant : Int) (scale : Nat) (cs : List Char) : Option Dec :=
    let signAndRest : Bool × List Char :=
      match cs with
      | '-' :: rest => (true, rest)
      | '+' :: rest => (false, rest)
      | _ => (false, cs)
    let ds := signAndRest.2.takeWhile isDigitCh
    let rest := signAndRest.2.dropWhile isDigitCh
    if ds.isEmpty || !rest.isEmpty then none
    else
      let e := natOfDigitsMSB ds
      if signAndRest.1 then some ⟨mant, scale + e⟩
      else some ⟨mant * 10 ^ e, scale⟩

/-- The per-candidate loop of `get_balance_once`.  A candidate that starts
with a known prefix has its token extracted (`Баланс ` → second
whitespace-delimited token, `You have ` → third); a missing token is an
early `?` return (the whole call fails, modelled `none` — later candidates
are not tried); a token that fails to parse as a float falls through to
the next candidate, as does an unknown prefix.  An exhausted list is the
final `bail!`. -/
def candidateLoop : List (List Char) → Option Dec
  | [] => none
  | msg :: rest =>
      if "Баланс ".data.isPrefixOf msg then
        match (splitWhitespaceL msg).get? 1 with
        | none => none
        | some tok =>
            match parseFloat (trimL tok) with
            | some v => some v
            | none => candidateLoop rest
      else if "You have ".data.isPrefixOf msg then
        match (splitWhitespaceL msg).get? 2 with
        | none => none
        | some tok =>
            match parseFloat (trimL tok) with
            | some v => some v
            | none => candidateLoop rest
      else candidateLoop rest

/-- Function `MobileProvider::get_balance_once` as a function of the balance-query
command's standard output: find the first trimmed line starting with
`+CUSD: `, take what stands between the first pair of double quotes,
decode it as UCS-2 hex and as UTF-8 hex (failed decodes are filtered out),
then run the candidate loop.  All failure paths collapse to `none`. -/
def get_balance_once (output : String) : Option Dec :=
  match (linesL output.data).map trimL
      |>.find? (fun l => "+CUSD: ".data.isPrefixOf l) with
  | none => none
  | some line =>
      match (splitOnCh '"' line).get? 1 with
      | none => none
      | some message =>
          candidateLoop
            ([decode_ucs2_in_hex message, decode_utf8_in_hex message].filterMap id)

/-- The external commands `get_balance` runs. -/
inductive ExtCmd where
  | balanceQuery
  | restartLte
deriving DecidableEq, Repr

/-- The retry loop of `get_balance`: `for _ in 0..retry_count`, breaking on
the first success.  `attempt i` is the outcome of the `i`-th
`get_balance_once` call.  Returns the commands invoked and the balance
found, if any. -/
def getBalanceLoop (attempt : Nat → Option Dec) :
    Nat → Nat → List ExtCmd × Option Dec
  | _, 0 => ([], none)
  | i, k + 1 =>
      match attempt i with
      | some v => ([ExtCmd.balanceQuery], some v)
      | none =>
          let r := getBalanceLoop attempt (i + 1) k
          (ExtCmd.balanceQuery :: r.1, r.2)

/-- Function `MobileProvider::get_balance`: run the retry loop, then invoke the
modem-restart command unconditionally, then return the balance or the
final `Failed to get balance` error. -/
def get_balance (get_balance_retry_count : Nat)
    (attempt : Nat → Option Dec) : List ExtCmd × Except Unit Dec :=
  let r := getBalanceLoop attempt 0 get_balance_retry_count
  (r.1 ++ [ExtCmd.restartLte],
    match r.2 with
    | some v => Except.ok v
    | none => Except.error ())

/-- A modem reply whose `+CUSD` line carries the quoted hex payload that is
the UTF-8 hex encoding of `You have 398.08 som. Top up your balance with
O!Bonuses` (the payload of the `test_utf8_decoder` unit test, framed by the
reply lines the source's log excerpt shows). -/
def modemOutputUtf8 : String :=
  "OK\n+CREG: 1, 1ca4, ca8b8, 2\n  +CUSD: 0,\"596f752068617665203339382e303820736f6d2e20546f7020757020796f75722062616c616e63652077697468204f21426f6e75736573\",15\n"

/-- A modem reply whose `+CUSD` line carries the quoted hex payload that is
the UCS-2 hex encoding of `Баланс 548.08 с. 1000 психологических тестов
*341# 5 сом в день` (the payload of the `test_ucs2_decoder` unit test). -/
def modemOutputUcs2 : String :=
  "+CUSD: 0,\"04110430043b0430043d04410020003500340038002e0030003800200441002e002000310030003000300020043f044104380445043e043b043e04330438044704350441043a0438044500200442043504410442043e04320020002a00330034003100230020003500200441043e043c00200432002004340435043d044c\",15\r\n"

end MobileProvider

/-! ## Interleaved `get` / `update` traces

Each mutex-protected section of `PersistentStateGuard` is atomic with
respect to the other sections (they contend on the same `tokio::sync::Mutex`),
while everything between sections may interleave arbitrarily.  A concurrent
history of `get` and `update` calls is therefore modelled as an arbitrary
sequence of operations applied to the guard, each with its own wall-clock
time. -/

/-- One operation of a concurrent history. -/
inductive Op where
  | opGet (now : Int)
  | opUpdate (now : Int) (writeOk : Bool) (f : PersistentState → PersistentState)

/-- The outcome of running a history: the final guard, the snapshots the
`get` calls returned, and the post-mutation states the `update` calls
committed (each in history order). -/
structure RunResult where
  final : PersistentStateGuard
  gets : List PersistentState
  commits : List PersistentState

/-- Run a history of operations against the guard. -/
def runOps : PersistentStateGuard → List Op → RunResult
  | g, [] => ⟨g, [], []⟩
  | g, Op.opGet now :: rest =>
      let r := g.get now
      let acc := runOps r.1 rest
      ⟨acc.final, r.2 :: acc.gets, acc.commits⟩
  | g, Op.opUpdate now wk f :: rest =>
      let r := g.update now wk (fun s => (f s, ()))
      let acc := runOps r.1 rest
      ⟨acc.final, acc.gets, r.1.state :: acc.commits⟩

/-! ## Round-trip of the serialization codec -/

lemma digitChar_semi (d : Nat) (h : d < 10) :
    (!(Nat.digitChar d == ';')) = true ∧ isDigitCh (Nat.digitChar d) = true ∧
      digitVal (Nat.digitChar d) = d := by
  interval_cases d <;> exact ⟨rfl, rfl, rfl⟩

lemma takeWhile_all_stop {p : Char → Bool} :
    ∀ (l : List Char) (x : Char) (r : List Char),
      (∀ c ∈ l, p c = true) → p x = false → (l ++ x :: r).takeWhile p = l := by
  intro l
  induction l with
  | nil => intro x r _ hx; simp [List.takeWhile_cons, hx]
  | cons a l ih =>
      intro x r hl hx
      have ha : p a = true := hl a (List.mem_cons_self a l)
      simp only [List.cons_append, List.takeWhile_cons, ha, if_true]
      rw [ih x r (fun c hc => hl c (List.mem_cons_of_mem a hc)) hx]

lemma dropWhile_all_stop {p : Char → Bool} :
    ∀ (l : List Char) (x : Char) (r : List Char),
      (∀ c ∈ l, p c = true) → p x = false →
      (l ++ x :: r).dropWhile p = x :: r := by
  intro l
  induction l with
  | nil => intro x r _ hx; simp [List.dropWhile_cons, hx]
  | cons a l ih =>
      intro x r hl hx
      have ha : p a = true := hl a (List.mem_cons_self a l)
      simp only [List.cons_append, List.dropWhile_cons, ha, if_true]
      exact ih x r (fun c hc => hl c (List.mem_cons_of_mem a hc)) hx

lemma natDigitsAux_eq_digits :
    ∀ (fuel n : Nat), n ≤ fuel → natDigitsAux fuel n = Nat.digits 10 n := by
  intro fuel
  induction fuel with
  | zero =>
      intro n hn
      have : n = 0 := Nat.le_zero.1 hn
      subst this
      simp [natDigitsAux, Nat.digits_zero]
  | succ fuel ih =>
      intro n hn
      by_cases h0 : n = 0
      · subst h0; simp [natDigitsAux, Nat.digits_zero]
      · rw [natDigitsAux, if_neg h0,
          ih (n / 10) (by omega),
          Nat.digits_def' (by norm_num : 1 < 10) (Nat.pos_of_ne_zero h0)]

lemma natDigits_eq (n : Nat) : natDigits n = Nat.digits 10 n :=
  natDigitsAux_eq_digits n n le_rfl

lemma parseNat_serNat (n : Nat) (rest : List Char) :
    parseNat (serNat n ++ rest) = some (n, rest) := by
  have hlt : ∀ d ∈ natDigits n, d < 10 := fun d hd =>
    Nat.digits_lt_base (by norm_num) (natDigits_eq n ▸ hd)
  have hmap : ∀ c ∈ (natDigits n).map Nat.digitChar, (!(c == ';')) = true := by
    intro c hc
    obtain ⟨d, hd, rfl⟩ := List.mem_map.1 hc
    exact (digitChar_semi d (hlt d hd)).1
  have harr : serNat n ++ rest =
      (natDigits n).map Nat.digitChar ++ ';' :: rest := by
    simp [serNat, List.append_assoc]
  rw [parseNat, harr, takeWhile_all_stop _ _ _ hmap (by decide),
    dropWhile_all_stop _ _ _ hmap (by decide)]
  have hall : ((natDigits n).map Nat.digitChar).all isDigitCh = true := by
    rw [List.all_eq_true]
    intro c hc
    obtain ⟨d, hd, rfl⟩ := List.mem_map.1 hc
    exact (digitChar_semi d (hlt d hd)).2.1
  simp only [hall, if_true]
  rw [List.map_map]
  have hid : (natDigits n).map (digitVal ∘ Nat.digitChar) = natDigits n := by
    refine (List.map_congr_left ?_).trans (List.map_id _)
    intro d hd
    exact (digitChar_semi d (hlt d hd)).2.2
  rw [hid, natDigits_eq, Nat.ofDigits_digits]

lemma parseInt_serInt (i : Int) (rest : List Char) :
    parseInt (serInt i ++ rest) = some (i, rest) := by
  by_cases h : i < 0
  · have hi : (-(i.natAbs : Int)) = i := by omega
    simp only [serInt, if_pos h, List.cons_append, parseInt, parseNat_serNat,
      Option.map, hi]
  · have hi : ((i.natAbs : Int)) = i := by omega
    simp only [serInt, if_neg h, List.cons_append, parseInt, parseNat_serNat,
      Option.map, hi]

lemma parseBool_serBool (b : Bool) (rest : List Char) :
    parseBool (serBool b ++ rest) = some (b, rest) := by
  cases b <;> rfl

lemma parseString_serString (s : String) (rest : List Char) :
    parseString (serString s ++ rest) = some (s, rest) := by
  rw [parseString, serString, List.append_assoc, parseNat_serNat]
  have hle : s.data.length ≤ (s.data ++ rest).length := by
    rw [List.length_append]; omega
  simp only [hle, if_true, List.take_left, List.drop_left]

lemma parseDec_serDec (d : Dec) (rest : List Char) :
    parseDec (serDec d ++ rest) = some (d, rest) := by
  rw [parseDec, serDec, List.append_assoc, parseInt_serInt]
  simp only [parseNat_serNat]

lemma parseSpeedTest_serSpeedTest (s : SpeedTest) (rest : List Char) :
    parseSpeedTest (serSpeedTest s ++ rest) = some (s, rest) := by
  rw [parseSpeedTest, serSpeedTest, List.append_assoc, List.append_assoc,
    parseDec_serDec]
  simp only [parseDec_serDec]

lemma parseMessage_serMessage (m : TelegramMessage) (rest : List Char) :
    parseMessage (serMessage m ++ rest) = some (m, rest) := by
  rw [parseMessage, serMessage, List.append_assoc, List.append_assoc,
    parseString_serString]
  simp only [parseString_serString, parseInt_serInt]

lemma parseOption_serOption {α : Type}
    (ser : α → List Char) (p : List Char → Option (α × List Char))
    (h : ∀ a rest, p (ser a ++ rest) = some (a, rest))
    (o : Option α) (rest : List Char) :
    parseOption p (serOption ser o ++ rest) = some (o, rest) := by
  cases o with
  | none => rfl
  | some a =>
      simp only [serOption, List.cons_append, parseOption, h, Option.map]

lemma parseCount_sers {α : Type}
    (ser : α → List Char) (p : List Char → Option (α × List Char))
    (h : ∀ a rest, p (ser a ++ rest) = some (a, rest)) :
    ∀ (l : List α) (rest : List Char),
      parseCount p l.length ((l.map ser).flatten ++ rest) = some (l, rest) := by
  intro l
  induction l with
  | nil => intro rest; rfl
  | cons a l ih =>
      intro rest
      simp only [List.map_cons, List.flatten_cons, List.length_cons,
        List.append_assoc]
      rw [parseCount, h]
      simp only [ih]

lemma parseList_serList {α : Type}
    (ser : α → List Char) (p : List Char → Option (α × List Char))
    (h : ∀ a rest, p (ser a ++ rest) = some (a, rest))
    (l : List α) (rest : List Char) :
    parseList p (serList ser l ++ rest) = some (l, rest) := by
  rw [parseList, serList, List.append_assoc, parseNat_serNat]
  exact parseCount_sers ser p h l rest

lemma parseState_serState (ps : PersistentState) (rest : List Char) :
    parseState (serState ps ++ rest) = some (ps, rest) := by
  rw [parseState, serState]
  simp only [List.append_assoc]
  rw [parseOption_serOption serBool parseBool parseBool_serBool]
  simp only [parseOption_serOption serSpeedTest parseSpeedTest
      parseSpeedTest_serSpeedTest,
    parseOption_serOption serInt parseInt parseInt_serInt,
    parseOption_serOption serDec parseDec parseDec_serDec,
    parseList_serList serMessage parseMessage parseMessage_serMessage]

/-- The codec round-trip: deserializing a serialized record yields the
record. -/
lemma deserialize_serialize (ps : PersistentState) :
    deserializeState (serializeState ps) = some ps := by
  have h : (serializeState ps).data = serState ps ++ [] := by
    simp [serializeState]
  rw [deserializeState, h, parseState_serState]

/-- Loading a file that holds a serialized record yields the record. -/
lemma load_serialize (s : PersistentState) (t : Int) :
    PersistentState.load_from_yaml (some (serializeState s, t)) = s := by
  rw [PersistentState.load_from_yaml, deserialize_serialize]

/-! ## Facts about the store operations -/

lemma reload_disk (g : PersistentStateGuard) (now : Int) :
    (g.reload now).disk = g.disk := by
  rw [PersistentStateGuard.reload]
  split <;> rfl

lemma reload_state_cases (g : PersistentStateGuard) (now : Int) :
    (g.reload now).state = g.state ∨
      (g.reload now).state = PersistentState.load_from_yaml g.disk := by
  rw [PersistentStateGuard.reload]
  split
  · exact Or.inr rfl
  · exact Or.inl rfl

lemma update_state (g : PersistentStateGuard) (now : Int) (writeOk : Bool)
    {R : Type} (f : PersistentState → PersistentState × R) :
    (g.update now writeOk f).1.state = (f (g.reload now).state).1 := by
  rw [PersistentStateGuard.update]
  split <;> rfl

lemma update_disk_ok (g : PersistentStateGuard) (now : Int)
    {R : Type} (f : PersistentState → PersistentState × R) :
    (g.update now true f).1.disk =
      some (serializeState (f (g.reload now).state).1, now) := rfl

lemma update_disk_fail (g : PersistentStateGuard) (now : Int)
    {R : Type} (f : PersistentState → PersistentState × R) :
    (g.update now false f).1.disk = g.disk := by
  rw [PersistentStateGuard.update]
  exact reload_disk g now

lemma update_ok_snd (g : PersistentStateGuard) (now : Int)
    {R : Type} (f : PersistentState → PersistentState × R) :
    (g.update now true f).2 = Except.ok (f (g.reload now).state).2 := rfl

lemma update_fail_fst (g : PersistentStateGuard) (now : Int)
    {R : Type} (f : PersistentState → PersistentState × R) :
    (g.update now false f).1 =
      { g.reload now with state := (f (g.reload now).state).1 } := rfl

lemma reload_last_read (g : PersistentStateGuard) (now : Int) :
    (g.reload now).last_read_time =
      if g.is_changed_on_disk then now else g.last_read_time := by
  rw [PersistentStateGuard.reload]
  split <;> simp [*]

/-! ## Facts about the queue-processing loop -/

lemma processPop_char (now : Int) (timeout : Nat)
    (send : String → String → Bool) :
    ∀ l : List TelegramMessage, (∀ m ∈ l, m.timestamp ≤ now) →
      Telegram.processPop now timeout send l = some
        (l.filter (fun m => !decide (timeout < (now - m.timestamp).toNat) &&
            !send m.chat_id (Telegram.retryText m)),
         l,
         (l.filter (fun m => !decide (timeout < (now - m.timestamp).toNat))).map
           (fun m => (m.chat_id, Telegram.retryText m))) := by
  intro l
  induction l with
  | nil => intro _; rfl
  | cons m rest ih =>
      intro h
      obtain ⟨mc, mt, mts⟩ := m
      have hm : ¬ now < mts :=
        not_lt.2 (h ⟨mc, mt, mts⟩ (List.mem_cons_self _ rest))
      have hrest := ih (fun x hx => h x (List.mem_cons_of_mem _ hx))
      rw [Telegram.processPop, if_neg hm]
      by_cases he : timeout < (now - mts).toNat
      · have he2 : ¬ now ≤ (timeout : Int) + mts := by omega
        rw [if_pos he, hrest]
        simp [List.filter_cons, he2]
      · have he2 : now ≤ (timeout : Int) + mts := by omega
        rw [if_neg he, hrest]
        by_cases hs : send mc (Telegram.retryText ⟨mc, mt, mts⟩)
        · simp [List.filter_cons, he2, hs]
        · simp [List.filter_cons, he2, hs]

lemma processPop_none (now : Int) (timeout : Nat)
    (send : String → String → Bool) :
    ∀ l : List TelegramMessage, (∃ m ∈ l, now < m.timestamp) →
      Telegram.processPop now timeout send l = none := by
  intro l
  induction l with
  | nil => rintro ⟨m, hm, _⟩; cases hm
  | cons m rest ih =>
      rintro ⟨x, hx, hfut⟩
      rw [Telegram.processPop]
      rcases List.mem_cons.1 hx with hxm | hxr
      · subst hxm
        rw [if_pos hfut]
      · by_cases hm : now < m.timestamp
        · rw [if_pos hm]
        · rw [if_neg hm, ih ⟨x, hxr, hfut⟩]
          by_cases he : timeout < (now - m.timestamp).toNat
          · rw [if_pos he]
          · rw [if_neg he]

/-! ## Soundness of `get` snapshots over interleaved histories -/

lemma runOps_gets_mem (ops : List Op) :
    ∀ (g : PersistentStateGuard) (A : List PersistentState),
      g.state ∈ A → PersistentState.load_from_yaml g.disk ∈ A →
      ∀ v ∈ (runOps g ops).gets, v ∈ A ++ (runOps g ops).commits := by
  induction ops with
  | nil =>
      intro g A _ _ v hv
      cases hv
  | cons op rest ih =>
      intro g A hmem hdisk v hv
      cases op with
      | opGet now =>
          rw [runOps] at hv ⊢
          rcases List.mem_cons.1 hv with hveq | hvrest
          · subst hveq
            refine List.mem_append_left _ ?_
            show (g.reload now).state ∈ A
            rcases reload_state_cases g now with h | h
            · rw [h]; exact hmem
            · rw [h]; exact hdisk
          · refine ih (g.reload now) A ?_ ?_ v hvrest
            · rcases reload_state_cases g now with h | h
              · rw [h]; exact hmem
              · rw [h]; exact hdisk
            · rw [reload_disk]; exact hdisk
      | opUpdate now wk f =>
          rw [runOps] at hv ⊢
          set g1 := (g.update now wk (fun s => (f s, ()))).1 with hg1
          have hstep : ∀ w ∈ (runOps g1 rest).gets,
              w ∈ (A ++ [g1.state]) ++ (runOps g1 rest).commits := by
            refine ih g1 (A ++ [g1.state]) ?_ ?_
            · exact List.mem_append_right _ (List.mem_singleton.2 rfl)
            · cases wk with
              | true =>
                  have hd : g1.disk =
                      some (serializeState (f (g.reload now).state), now) := by
                    rw [hg1]
                    exact update_disk_ok g now _
                  have hs : g1.state = f (g.reload now).state := by
                    rw [hg1]
                    exact update_state g now true _
                  rw [hd, load_serialize, ← hs]
                  exact List.mem_append_right _ (List.mem_singleton.2 rfl)
              | false =>
                  have hd : g1.disk = g.disk := by
                    rw [hg1]
                    exact update_disk_fail g now _
                  rw [hd]
                  exact List.mem_append_left _ hdisk
          have := hstep v hv
          simp only [List.append_assoc, List.singleton_append,
            List.mem_append, List.mem_cons] at this ⊢
          tauto

lemma getBalanceLoop_no_restart (attempt : Nat → Option Dec) :
    ∀ (k i : Nat),
      (MobileProvider.getBalanceLoop attempt i k).1.count
        MobileProvider.ExtCmd.restartLte = 0 := by
  intro k
  induction k with
  | zero => intro i; rfl
  | succ k ih =>
      intro i
      rw [MobileProvider.getBalanceLoop]
      cases attempt i with
      | some v => rfl
      | none => simp [List.count_cons, ih (i + 1)]

/-! ## The claims -/

/-- Claim C4: with `get_balance_retry_count = 3` and a balance query whose
output never yields a parseable balance, `get_balance` makes exactly 3
attempts, invokes the modem-restart command exactly once, and returns the
`Failed to get balance` error; and for every retry count and every attempt
outcome sequence, the modem-restart command is invoked exactly once. -/
theorem C4_retries_then_restart_once :
    ((MobileProvider.get_balance 3 (fun _ => none)).1.count
        MobileProvider.ExtCmd.balanceQuery = 3 ∧
      (MobileProvider.get_balance 3 (fun _ => none)).1.count
        MobileProvider.ExtCmd.restartLte = 1 ∧
      (MobileProvider.get_balance 3 (fun _ => none)).2 = Except.error ()) ∧
    ∀ (rc : Nat) (attempt : Nat → Option Dec),
      (MobileProvider.get_balance rc attempt).1.count
        MobileProvider.ExtCmd.restartLte = 1 := by
  refine ⟨⟨rfl, rfl, rfl⟩, ?_⟩
  intro rc attempt
  rw [MobileProvider.get_balance]
  simp [List.count_append, getBalanceLoop_no_restart attempt rc 0]

/-- Claim C6: on a `+CUSD` line carrying the UTF-8 hex payload of
`You have 398.08 som. …` the pipeline extracts the third
whitespace-delimited token and yields `398.08` (the exact decimal
`39808 × 10⁻²`); on the UCS-2 hex payload of `Баланс 548.08 с. …` it
extracts the second token and yields `548.08`.  In both cases the first
decoded candidate that matches a known prefix and parses as a
floating-point number is the result. -/
theorem C6_balance_decode :
    MobileProvider.get_balance_once MobileProvider.modemOutputUtf8 =
        some ⟨39808, 2⟩ ∧
      (⟨39808, 2⟩ : Dec).toRat = 39808 / 100 ∧
    MobileProvider.get_balance_once MobileProvider.modemOutputUcs2 =
        some ⟨54808, 2⟩ ∧
      (⟨54808, 2⟩ : Dec).toRat = 54808 / 100 := by
  refine ⟨?_, ?_, ?_, ?_⟩
  · set_option maxRecDepth 1000000 in decide
  · norm_num [Dec.toRat]
  · set_option maxRecDepth 1000000 in decide
  · norm_num [Dec.toRat]

/-- Claim C8: serialization and reload round-trip.  After an `update` with
the identity mutator (which serializes the record and writes it to the
backing file), loading the state from that file — as happens at process
restart — yields a record equal to the pre-restart snapshot. -/
theorem C8_roundtrip_after_identity_update (g : PersistentStateGuard)
    (now : Int) :
    PersistentState.load_from_yaml
        ((g.update now true (fun s => (s, ()))).1.disk) =
      (g.update now true (fun s => (s, ()))).1.state := by
  rw [update_disk_ok, load_serialize, update_state]

/-- Claim C9: over every interleaved history of `get` and `update` calls
against a freshly loaded guard, every snapshot a `get` returns is either
the initially loaded record or the post-mutation record committed by some
`update` of the history — never a mix of two updates' fields. -/
theorem C9_get_returns_committed_snapshot (disk : Option (String × Int))
    (now0 : Int) (ops : List Op) (v : PersistentState)
    (hv : v ∈ (runOps (PersistentStateGuard.load_from_yaml disk now0) ops).gets) :
    v ∈ (PersistentStateGuard.load_from_yaml disk now0).state ::
      (runOps (PersistentStateGuard.load_from_yaml disk now0) ops).commits := by
  have h := runOps_gets_mem ops (PersistentStateGuard.load_from_yaml disk now0)
    [(PersistentStateGuard.load_from_yaml disk now0).state]
    (List.mem_singleton.2 rfl) (List.mem_singleton.2 rfl) v hv
  simpa using h

/-- Witness for **C9**: a concrete history — an `update` whose disk write
fails followed by a `get` — on which the returned snapshot is the update's
committed record. -/
theorem C9_witness :
    (⟨some true, none, none, none, []⟩ : PersistentState) ∈
      (runOps (PersistentStateGuard.load_from_yaml none 0)
        [Op.opUpdate 1 false
          (fun s => { s with is_wide_network_available := some true }),
         Op.opGet 2]).gets ∧
    (⟨some true, none, none, none, []⟩ : PersistentState) ∈
      (PersistentStateGuard.load_from_yaml none 0).state ::
        (runOps (PersistentStateGuard.load_from_yaml none 0)
          [Op.opUpdate 1 false
            (fun s => { s with is_wide_network_available := some true }),
           Op.opGet 2]).commits :=
  ⟨by decide,
    C9_get_returns_committed_snapshot none 0
      [Op.opUpdate 1 false
        (fun s => { s with is_wide_network_available := some true }),
       Op.opGet 2]
      ⟨some true, none, none, none, []⟩ (by decide)⟩

/-- Counterexample to **C2** as stated: with the backing file deleted
(`disk = none`) after a state with `balance = 5` was loaded, the next
`get()` does *not* return the default/empty record — `is_changed_on_disk`
treats the failed metadata read as "unchanged" and `get` serves the cached
in-memory state. -/
theorem C2_counterexample :
    (PersistentStateGuard.get
        ⟨none, 0, ⟨none, none, none, some ⟨5, 0⟩, []⟩⟩ 1).2 ≠
      PersistentState.defaultState := by decide

/-- Claim C2 (amended): if the persistent state file is deleted after the
store has loaded it, the next `get()` returns the cached in-memory record
(the deletion is not detected, since the failed metadata read makes
`is_changed_on_disk` return `false`); a subsequent `update` recreates the
file containing the full serialized record. -/
theorem C2_deleted_file_get_and_update (g : PersistentStateGuard)
    (now now2 : Int) {R : Type} (f : PersistentState → PersistentState × R)
    (h : g.disk = none) :
    (g.get now).2 = g.state ∧
    (g.update now2 true f).1.disk =
      some (serializeState (f g.state).1, now2) := by
  have hch : g.is_changed_on_disk = false := by
    rw [PersistentStateGuard.is_changed_on_disk, h]
  have hrel : ∀ t : Int, g.reload t = g := by
    intro t
    rw [PersistentStateGuard.reload, hch]
    simp
  constructor
  · rw [PersistentStateGuard.get, hrel]
  · rw [update_disk_ok, hrel]

/-- Witness for **C2**: the amended statement at a concrete store whose
file is deleted. -/
theorem C2_witness :
    (⟨none, 0, ⟨none, none, none, some ⟨5, 0⟩, []⟩⟩ :
        PersistentStateGuard).disk = none ∧
    ((PersistentStateGuard.get
        ⟨none, 0, ⟨none, none, none, some ⟨5, 0⟩, []⟩⟩ 1).2 =
      (⟨none, none, none, some ⟨5, 0⟩, []⟩ : PersistentState) ∧
    (PersistentStateGuard.update
        ⟨none, 0, ⟨none, none, none, some ⟨5, 0⟩, []⟩⟩ 2 true
        (fun s => (s, ()))).1.disk =
      some (serializeState ((fun (s : PersistentState) => (s, ()))
        (⟨none, none, none, some ⟨5, 0⟩, []⟩ : PersistentState)).1, 2)) :=
  ⟨rfl,
    C2_deleted_file_get_and_update
      ⟨none, 0, ⟨none, none, none, some ⟨5, 0⟩, []⟩⟩ 1 2
      (fun s => (s, ())) rfl⟩

lemma is_changed_state_irrel (g : PersistentStateGuard) (X : PersistentState) :
    ({ g with state := X } : PersistentStateGuard).is_changed_on_disk =
      g.is_changed_on_disk := by
  cases g
  rfl

lemma is_changed_after_reload (g : PersistentStateGuard) (now : Int)
    (h : ∀ c t, g.disk = some (c, t) → t ≤ now) :
    (g.reload now).is_changed_on_disk = false := by
  cases hd : g.disk with
  | none =>
      rw [PersistentStateGuard.is_changed_on_disk, reload_disk, hd]
  | some p =>
      obtain ⟨c, t⟩ := p
      rw [PersistentStateGuard.is_changed_on_disk, reload_disk, hd]
      change decide ((g.reload now).last_read_time < t) = false
      have ht := h c t hd
      rw [reload_last_read]
      by_cases hcg : g.is_changed_on_disk
      · rw [if_pos hcg]
        exact decide_eq_false (by omega)
      · rw [if_neg hcg]
        have hform : g.is_changed_on_disk = decide (g.last_read_time < t) := by
          rw [PersistentStateGuard.is_changed_on_disk, hd]
        rw [hform] at hcg
        simp only [Bool.not_eq_true, decide_eq_false_iff_not] at hcg
        exact decide_eq_false hcg

/-- Claim C5: when the serialize-and-write of `update` fails, `update`
returns an error but the mutation remains applied to the in-memory state:
a subsequent `get` (without an external file edit — here, no file newer
than the update time) observes the mutated value; and a successful
`update` returns the mutator's result value. -/
theorem C5_write_failure_keeps_mutation (g : PersistentStateGuard)
    (now now2 : Int) {R : Type} (f : PersistentState → PersistentState × R)
    (h : ∀ c t, g.disk = some (c, t) → t ≤ now) :
    (g.update now false f).2 = Except.error () ∧
    (g.update now false f).1.state = (f (g.reload now).state).1 ∧
    ((g.update now false f).1.get now2).2 = (f (g.reload now).state).1 ∧
    (g.update now true f).2 = Except.ok (f (g.reload now).state).2 := by
  refine ⟨rfl, update_state g now false f, ?_, update_ok_snd g now f⟩
  rw [update_fail_fst]
  have hch : ({ g.reload now with state := (f (g.reload now).state).1 } :
      PersistentStateGuard).is_changed_on_disk = false := by
    rw [is_changed_state_irrel]
    exact is_changed_after_reload g now h
  have hre : ({ g.reload now with state := (f (g.reload now).state).1 } :
      PersistentStateGuard).reload now2 =
      { g.reload now with state := (f (g.reload now).state).1 } := by
    rw [PersistentStateGuard.reload, hch]
    simp
  show (({ g.reload now with state := (f (g.reload now).state).1 } :
      PersistentStateGuard).reload now2).state = (f (g.reload now).state).1
  rw [hre]

/-- Witness for **C5**: a concrete store whose file is older than the
failed update. -/
theorem C5_witness :
    (∀ c t, (⟨some ("f", 0), 0, PersistentState.defaultState⟩ :
        PersistentStateGuard).disk = some (c, t) → t ≤ (5 : Int)) ∧
    ((PersistentStateGuard.update
        ⟨some ("f", 0), 0, PersistentState.defaultState⟩ 5 false
        (fun s => ({ s with balance := some ⟨7, 0⟩ }, 42))).2 =
          Except.error () ∧
    (PersistentStateGuard.update
        ⟨some ("f", 0), 0, PersistentState.defaultState⟩ 5 false
        (fun s => ({ s with balance := some ⟨7, 0⟩ }, 42))).1.state =
      ((fun (s : PersistentState) => ({ s with balance := some ⟨7, 0⟩ }, 42))
        ((PersistentStateGuard.reload
          ⟨some ("f", 0), 0, PersistentState.defaultState⟩ 5).state)).1 ∧
    ((PersistentStateGuard.update
        ⟨some ("f", 0), 0, PersistentState.defaultState⟩ 5 false
        (fun s => ({ s with balance := some ⟨7, 0⟩ }, 42))).1.get 6).2 =
      ((fun (s : PersistentState) => ({ s with balance := some ⟨7, 0⟩ }, 42))
        ((PersistentStateGuard.reload
          ⟨some ("f", 0), 0, PersistentState.defaultState⟩ 5).state)).1 ∧
    (PersistentStateGuard.update
        ⟨some ("f", 0), 0, PersistentState.defaultState⟩ 5 true
        (fun s => ({ s with balance := some ⟨7, 0⟩ }, 42))).2 =
      Except.ok ((fun (s : PersistentState) =>
          ({ s with balance := some ⟨7, 0⟩ }, 42))
        ((PersistentStateGuard.reload
          ⟨some ("f", 0), 0, PersistentState.defaultState⟩ 5).state)).2) := by
  have hyp : ∀ c t, (⟨some ("f", 0), 0, PersistentState.defaultState⟩ :
      PersistentStateGuard).disk = some (c, t) → t ≤ (5 : Int) := by
    intro c t ht
    injection ht with h1
    injection h1 with h2 h3
    omega
  exact ⟨hyp,
    C5_write_failure_keeps_mutation
      ⟨some ("f", 0), 0, PersistentState.defaultState⟩ 5 6
      (fun s => ({ s with balance := some ⟨7, 0⟩ }, 42)) hyp⟩

/-- Counterexample to **C3** as stated: on the drained queue
`[first (enqueued at 1), second (enqueued at 2)]` the first entry examined
by the pop loop is `second` — the *newest* — not the front entry `first`. -/
theorem C3_counterexample :
    (Telegram.processDrained 10 100 (fun _ _ => true)
        [⟨"a", "first", 1⟩, ⟨"b", "second", 2⟩]).map
        (fun r => r.2.1.head?) = some (some ⟨"b", "second", 2⟩) ∧
    (⟨"b", "second", 2⟩ : TelegramMessage) ≠ ⟨"a", "first", 1⟩ :=
  ⟨by decide, by decide⟩

/-- Claim C3 (amended): the function `process_queue` examines the drained queue
*newest-first* — `Vec::pop` walks the insertion-ordered vector back to
front, so the examination order is exactly the reverse of the insertion
order. -/
theorem C3_processes_newest_first (now : Int) (timeout : Nat)
    (send : String → String → Bool) (q : List TelegramMessage)
    (h : ∀ m ∈ q, m.timestamp ≤ now) :
    (Telegram.processDrained now timeout send q).map (fun r => r.2.1) =
      some q.reverse := by
  rw [Telegram.processDrained,
    processPop_char now timeout send q.reverse
      (fun m hm => h m (List.mem_reverse.1 hm))]
  rfl

/-- Witness for **C3**: the amended statement on a concrete two-element
queue. -/
theorem C3_witness :
    (∀ m ∈ ([⟨"a", "first", 1⟩, ⟨"b", "second", 2⟩] :
        List TelegramMessage), m.timestamp ≤ (10 : Int)) ∧
    (Telegram.processDrained 10 100 (fun _ _ => true)
        [⟨"a", "first", 1⟩, ⟨"b", "second", 2⟩]).map (fun r => r.2.1) =
      some ([⟨"a", "first", 1⟩, ⟨"b", "second", 2⟩] :
        List TelegramMessage).reverse :=
  ⟨by decide,
    C3_processes_newest_first 10 100 (fun _ _ => true)
      [⟨"a", "first", 1⟩, ⟨"b", "second", 2⟩] (by decide)⟩

/-- Claim C7: among the drained entries (all with well-defined ages), every
entry whose age exceeds `message_timeout` is dropped: it is not written
back, and the attempt list — exactly one delivery attempt per non-expired
entry, in processing order, with the original enqueue time appended to the
outgoing text — contains attempts only for the non-expired entries. -/
theorem C7_timeout_policy (now : Int) (timeout : Nat)
    (send : String → String → Bool) (q : List TelegramMessage)
    (h : ∀ m ∈ q, m.timestamp ≤ now) :
    Telegram.processDrained now timeout send q = some
      (q.reverse.filter (fun m =>
          !decide (timeout < (now - m.timestamp).toNat) &&
          !send m.chat_id (Telegram.retryText m)),
       q.reverse,
       (q.reverse.filter (fun m =>
          !decide (timeout < (now - m.timestamp).toNat))).map
         (fun m => (m.chat_id, Telegram.retryText m))) ∧
    ∀ m ∈ q, timeout < (now - m.timestamp).toNat →
      m ∉ q.reverse.filter (fun m =>
        !decide (timeout < (now - m.timestamp).toNat) &&
        !send m.chat_id (Telegram.retryText m)) := by
  constructor
  · rw [Telegram.processDrained]
    exact processPop_char now timeout send q.reverse
      (fun m hm => h m (List.mem_reverse.1 hm))
  · intro m hm hexp hmem
    have h2 := (List.mem_filter.1 hmem).2
    rw [Bool.and_eq_true] at h2
    have h3 := h2.1
    simp only [Bool.not_eq_true', decide_eq_false_iff_not] at h3
    exact h3 hexp

/-- Witness for **C7**: a queue holding one expired and one fresh entry. -/
theorem C7_witness :
    (∀ m ∈ ([⟨"a", "old", 1⟩, ⟨"b", "new", 7⟩] : List TelegramMessage),
        m.timestamp ≤ (10 : Int)) ∧
    (Telegram.processDrained 10 5 (fun _ _ => false)
        [⟨"a", "old", 1⟩, ⟨"b", "new", 7⟩] = some
      (([⟨"a", "old", 1⟩, ⟨"b", "new", 7⟩] :
          List TelegramMessage).reverse.filter (fun m =>
          !decide (5 < ((10 : Int) - m.timestamp).toNat) &&
          !(fun (_ _ : String) => false) m.chat_id (Telegram.retryText m)),
       ([⟨"a", "old", 1⟩, ⟨"b", "new", 7⟩] :
          List TelegramMessage).reverse,
       (([⟨"a", "old", 1⟩, ⟨"b", "new", 7⟩] :
          List TelegramMessage).reverse.filter (fun m =>
          !decide (5 < ((10 : Int) - m.timestamp).toNat))).map
         (fun m => (m.chat_id, Telegram.retryText m))) ∧
    ∀ m ∈ ([⟨"a", "old", 1⟩, ⟨"b", "new", 7⟩] : List TelegramMessage),
      5 < ((10 : Int) - m.timestamp).toNat →
      m ∉ ([⟨"a", "old", 1⟩, ⟨"b", "new", 7⟩] :
          List TelegramMessage).reverse.filter (fun m =>
        !decide (5 < ((10 : Int) - m.timestamp).toNat) &&
        !(fun (_ _ : String) => false) m.chat_id (Telegram.retryText m))) :=
  ⟨by decide,
    C7_timeout_policy 10 5 (fun _ _ => false)
      [⟨"a", "old", 1⟩, ⟨"b", "new", 7⟩] (by decide)⟩

/-- Claim C1 evaluated at the failing input: starting from an empty queue, a
message enqueued by a concurrent `send_message` between the drain and the
final write-back is present in the store (`midStore`) when the write-back
runs, yet the completed run leaves the persisted queue empty — the final
`update` *overwrites* the queue field with only the retained entries
instead of appending them, losing the concurrent arrival. -/
theorem C1_writeback_overwrites_concurrent_enqueue :
    (Telegram.process_queue ⟨none, 0, PersistentState.defaultState⟩ 10 100
        (fun _ _ => true) [⟨"chat", "hello", 5⟩]).midStore.state.telegram_queue =
      [⟨"chat", "hello", 5⟩] ∧
    (Telegram.process_queue ⟨none, 0, PersistentState.defaultState⟩ 10 100
        (fun _ _ => true) [⟨"chat", "hello", 5⟩]).result.map
        (fun g' => g'.state.telegram_queue) = some [] :=
  ⟨by decide, by decide⟩

/-- Claim C10: if some drained entry's enqueue timestamp lies in the future
(clock stepped backward), the `.to_std().unwrap()` of the negative age
panics the run (`result = none`), and at that point the drain has already
committed an empty queue — the drained entries are lost. -/
theorem C10_future_timestamp_panics (g : PersistentStateGuard) (now : Int)
    (timeout : Nat) (send : String → String → Bool)
    (h : ∃ m ∈ (g.reload now).state.telegram_queue, now < m.timestamp) :
    (Telegram.process_queue g now timeout send []).result = none ∧
    (Telegram.process_queue g now timeout send
        []).afterDrain.state.telegram_queue = [] := by
  obtain ⟨m, hm, hf⟩ := h
  have hnone : Telegram.processDrained now timeout send
      ((g.reload now).state.telegram_queue) = none := by
    rw [Telegram.processDrained]
    exact processPop_none now timeout send _ ⟨m, List.mem_reverse.2 hm, hf⟩
  constructor
  · simp only [Telegram.process_queue, update_ok_snd, Telegram.drainMutator,
      List.foldl_nil, hnone]
  · simp only [Telegram.process_queue, update_ok_snd, Telegram.drainMutator,
      List.foldl_nil, hnone, update_state]

/-- Witness for **C10**: a queue holding one future-dated entry. -/
theorem C10_witness :
    (∃ m ∈ ((⟨none, 0, ⟨none, none, none, none, [⟨"c", "late", 99⟩]⟩⟩ :
        PersistentStateGuard).reload 10).state.telegram_queue,
      (10 : Int) < m.timestamp) ∧
    ((Telegram.process_queue
        ⟨none, 0, ⟨none, none, none, none, [⟨"c", "late", 99⟩]⟩⟩ 10 100
        (fun _ _ => true) []).result = none ∧
    (Telegram.process_queue
        ⟨none, 0, ⟨none, none, none, none, [⟨"c", "late", 99⟩]⟩⟩ 10 100
        (fun _ _ => true) []).afterDrain.state.telegram_queue = []) :=
  ⟨by decide,
    C10_future_timestamp_panics
      ⟨none, 0, ⟨none, none, none, none, [⟨"c", "late", 99⟩]⟩⟩ 10 100
      (fun _ _ => true) (by decide)⟩

end Ratzek
